import Mathlib

/-!
Verification of the cache-first address-resolution pipeline of
`react-map-address-input` (files `useFirebasePlacesAutocompleteService` and
`useFirebaseGoogleAddress`).

The TypeScript source is shallowly embedded: the asynchronous, effectful hook
bodies become pure Lean functions that return both the updated session state
and a chronological trace of the observable effects (layer reads, observer
callbacks, calls into the external Google binding, store reads/writes).
Fallible collaborator calls (cache-layer `read`/`write`, Firestore
`getDoc`/`setDoc`) are modelled as `Except Unit`-valued functions, matching
"may throw / may reject" in the source.
-/

/-- `google.maps.places.AutocompletePrediction`, restricted to the fields the
repository inspects.  `place_id` is a plain string in the Google typings; the
source guards with JavaScript truthiness (`!prediction.place_id`,
`prediction.place_id || fallback`), so the empty string plays the role of a
missing identifier. -/
structure Prediction where
  place_id : String
  description : String
deriving DecidableEq, Repr

/-- A full place-details payload (`google.maps.places.PlaceResult`), opaque to
the pipeline except for the convenience fields derived during write-back. -/
structure Place where
  formatted_address : Option String
  location : Option (Int × Int)
deriving DecidableEq, Repr

/-- `CacheReadResult` from `useFirebasePlacesAutocompleteService`. -/
structure CacheReadResult where
  predictions : List Prediction
  fromLayer : String
deriving DecidableEq, Repr

/-- A `CacheLayer`: a name plus optional `read` and `write` functions.  Reads
may throw (`Except.error`), return `null` (`none`) or a `CacheReadResult`;
writes may throw. -/
structure CacheLayer where
  name : String
  read : Option (String → Except Unit (Option CacheReadResult)) := none
  write : Option (String → List Prediction → Except Unit Unit) := none

/-- `normalizeInput` from the source: `value.trim().toLowerCase()`.  Spelled
out over the character list (strip whitespace from both ends, then map each
character to lower case) so that concrete instances compute inside the
kernel. -/
def normalizeInput (value : String) : String :=
  ⟨(((value.data.dropWhile Char.isWhitespace).reverse.dropWhile
      Char.isWhitespace).reverse).map Char.toLower⟩

/-- The local React state kept by `useFirebasePlacesAutocompleteService`:
`placePredictions`, `isPlacePredictionsLoading`, `lastResultFromCache`,
`lastCacheLayerName`, plus the `lastInputRef` ref cell. -/
structure PredState where
  placePredictions : List Prediction
  isLoading : Bool
  lastResultFromCache : Option Bool
  lastCacheLayerName : Option String
  lastInput : Option String
deriving DecidableEq, Repr

/-- Observable effects of one `getPlacePredictions` call, in order:
a cache layer's `read` being invoked (with the argument it receives), the
`onAfterCacheHit` observer being invoked, and the call into the underlying
`base.getPlacePredictions` Google binding. -/
inductive Event where
  | layerRead (layerName : String) (arg : String)
  | cacheHitObserver (layerName : String) (arg : String) (preds : List Prediction)
  | baseCall (arg : String)
deriving DecidableEq, Repr

/-- The `for (const layer of orderedLayersRef.current)` loop of
`getPlacePredictions` (source lines 226-252) followed by the no-hit fallback
(lines 254-258).  Each layer without `read` is skipped; a `read` is invoked
with the raw `value`; a thrown read, a `null` result and a present-but-empty
prediction list all fall through to the next layer; the first non-empty
result short-circuits, updating state and firing the cache-hit observer.
If no layer hits, provenance is cleared to `fromCache = false`, the raw input
is remembered in `lastInputRef` and the Google binding is called. -/
def probeLayers (value : String) :
    List CacheLayer → PredState → PredState × List Event
  | [], st =>
      ({ st with lastResultFromCache := some false, lastCacheLayerName := none,
                 lastInput := some value },
       [Event.baseCall value])
  | layer :: rest, st =>
      match layer.read with
      | none => probeLayers value rest st
      | some f =>
          match f value with
          | Except.error _ =>
              let (st', evs) := probeLayers value rest st
              (st', Event.layerRead layer.name value :: evs)
          | Except.ok none =>
              let (st', evs) := probeLayers value rest st
              (st', Event.layerRead layer.name value :: evs)
          | Except.ok (some result) =>
              if result.predictions.isEmpty then
                let (st', evs) := probeLayers value rest st
                (st', Event.layerRead layer.name value :: evs)
              else
                ({ st with placePredictions := result.predictions,
                           isLoading := false,
                           lastResultFromCache := some true,
                           lastCacheLayerName := some layer.name },
                 [Event.layerRead layer.name value,
                  Event.cacheHitObserver layer.name value result.predictions])

/-- `getPlacePredictions` (source lines 208-259).  An input whose normalized
form is empty clears predictions and provenance and forwards the raw value to
the Google binding without probing any layer; otherwise the loading flag is
raised and the ordered layer list is probed. -/
def getPlacePredictions (layers : List CacheLayer) (st : PredState)
    (input : String) : PredState × List Event :=
  let value := input
  let normalized := normalizeInput value
  if normalized = "" then
    ({ st with placePredictions := [], isLoading := false,
               lastResultFromCache := none, lastCacheLayerName := none },
     [Event.baseCall value])
  else
    probeLayers value layers { st with isLoading := true }

/-- Observable effects of the write-back effect: a layer's `write` being
invoked (with the argument it receives) and the `onAfterGoogleResult`
observer firing. -/
inductive WEvent where
  | layerWrite (layerName : String) (arg : String) (preds : List Prediction)
  | afterGoogleResult (arg : String) (preds : List Prediction)
deriving DecidableEq, Repr

/-- The `useEffect` of `useFirebasePlacesAutocompleteService` (source lines
266-307) that mirrors the underlying hook's predictions into local state and,
on the cache-miss path, fans `write` out to every layer exposing it.  A
layer's `write` outcome is ignored (`try { await ... } catch {}`), so the
produced trace and state never depend on whether a write throws. -/
def writeBackEffect (layers : List CacheLayer) (st : PredState)
    (basePredictions : List Prediction) (baseLoading : Bool) :
    PredState × List WEvent :=
  if basePredictions.isEmpty && !baseLoading then
    ({ st with isLoading := false, placePredictions := [] }, [])
  else
    let st1 := { st with placePredictions := basePredictions,
                         isLoading := baseLoading }
    if layers.isEmpty ∨ st1.lastResultFromCache ≠ some false then
      (st1, [])
    else
      match st1.lastInput with
      | none => (st1, [])
      | some inp =>
          if inp = "" ∨ basePredictions.isEmpty then
            (st1, [])
          else
            let wevs := layers.filterMap fun layer =>
              layer.write.map fun w =>
                let _ := w inp basePredictions
                WEvent.layerWrite layer.name inp basePredictions
            (st1, wevs ++ [WEvent.afterGoogleResult inp basePredictions])

/-- A Firestore document in the `maps_addresses` collection, restricted to the
fields the repository reads or writes.  `none` stands for an absent field. -/
structure FsDoc where
  normalizedInput : Option String
  prediction : Option Prediction
  rawPlace : Option Place
deriving DecidableEq, Repr

/-- `createFirebaseLayer`'s `read` (source lines 95-122): query the collection
for documents whose `normalizedInput` field equals the normalized input; an
empty snapshot yields `null`; otherwise collect the documents' truthy
`prediction` fields, and yield `null` again when none carries one. -/
def firebaseRead (store : List FsDoc) (input : String) :
    Option CacheReadResult :=
  let normalizedInput := normalizeInput input
  let snapshot := store.filter fun d => d.normalizedInput = some normalizedInput
  if snapshot.isEmpty then
    none
  else
    let predictions := snapshot.filterMap (·.prediction)
    if predictions.isEmpty then
      none
    else
      some { predictions := predictions, fromLayer := "firebase" }

/-- `createFirebaseLayer`'s `write` (source lines 123-149), as the list of
(document key, written fields) pairs it upserts with merge semantics: one
document per prediction, keyed by the prediction's `place_id` or, when that is
falsy, by the normalized input plus a random suffix (`rand` supplies the
suffix for the i-th prediction).  An empty prediction list writes nothing. -/
def firebaseWriteDocs (input : String) (preds : List Prediction)
    (rand : Nat → String) : List (String × FsDoc) :=
  if preds.isEmpty then
    []
  else
    let normalizedInput := normalizeInput input
    preds.enum.map fun ip =>
      (if ip.2.place_id = "" then
         normalizedInput ++ "-" ++ rand ip.1
       else
         ip.2.place_id,
       { normalizedInput := some normalizedInput, prediction := some ip.2,
         rawPlace := none })

/-- The Firestore handle visible to `selectPrediction`: `getDoc` keyed by
document id (may reject), `setDoc` with merge semantics keyed by document id
(may reject; the written payload is `rawPlace`, `formattedAddress`,
`location`, `updatedAt`, all derived from the `Place` argument, so the
handle receives the `Place` itself). -/
structure FirestoreHandle where
  getDoc : String → Except Unit (Option FsDoc)
  setDoc : String → Place → Except Unit Unit

/-- The outcome `selectPrediction` resolves with:
`{ place, fromCache, cacheLayerName }`. -/
structure SelectOutcome where
  place : Option Place
  fromCache : Bool
  cacheLayerName : Option String
deriving DecidableEq, Repr

/-- The local state `selectPrediction` mutates: `selectedPlace` and the
`isSelecting` in-flight flag. -/
structure SelState where
  selectedPlace : Option Place
  isSelecting : Bool
deriving DecidableEq, Repr

/-- Observable I/O of one `selectPrediction` call: a Firestore `getDoc`, a
`placesService.getDetails` call, a Firestore `setDoc`. -/
inductive SelEvent where
  | storeRead (docId : String)
  | detailsCall (placeId : String)
  | storeWrite (docId : String)
deriving DecidableEq, Repr

/-- Steps 2-3 of `selectPrediction` (source lines 117-185): fall back to
`placesService.getDetails` (absent service or non-OK status yields a null
place), set `selectedPlace`, write the details back into Firestore when
configured, and resolve with the fetched place; provenance reuses the
prediction pipeline's `lastResultFromCache`/`lastCacheLayerName`.  A `setDoc`
rejection lands in the surrounding `catch`, which resolves with
`{ place: null, fromCache: false, cacheLayerName: null }`. -/
def selectFallback (fs : Option FirestoreHandle)
    (svc : Option (String → Option Place)) (lastFromCache : Option Bool)
    (lastLayerName : Option String) (sel : SelState) (placeId : String)
    (evs : List SelEvent) : SelectOutcome × SelState × List SelEvent :=
  match svc with
  | none =>
      (⟨none, false, none⟩, { sel with isSelecting := false }, evs)
  | some getDetails =>
      let evs := evs ++ [SelEvent.detailsCall placeId]
      match getDetails placeId with
      | none =>
          (⟨none, false, none⟩, { sel with isSelecting := false }, evs)
      | some place =>
          let sel := { sel with selectedPlace := some place }
          let outcome : SelectOutcome :=
            ⟨some place, false,
             if lastFromCache = some true then lastLayerName else none⟩
          match fs with
          | none =>
              (outcome, { sel with isSelecting := false }, evs)
          | some f =>
              let evs := evs ++ [SelEvent.storeWrite placeId]
              match f.setDoc placeId place with
              | Except.error _ =>
                  (⟨none, false, none⟩, { sel with isSelecting := false }, evs)
              | Except.ok _ =>
                  (outcome, { sel with isSelecting := false }, evs)

/-- `selectPrediction` from `useFirebaseGoogleAddress` (source lines 83-192).
Guard: a missing prediction or falsy `place_id` resolves immediately with no
I/O and without touching the in-flight flag.  Step 1 reads the Firestore
document keyed by `place_id`; a document carrying a `rawPlace` field is
returned with `fromCache = true, cacheLayerName = "firebase"` and no further
I/O; a `getDoc` rejection lands in the surrounding `catch` (resolving null)
without reaching the fallback.  Otherwise `selectFallback` runs. -/
def selectPrediction (fs : Option FirestoreHandle)
    (svc : Option (String → Option Place)) (lastFromCache : Option Bool)
    (lastLayerName : Option String) (sel : SelState)
    (prediction : Option Prediction) :
    SelectOutcome × SelState × List SelEvent :=
  match prediction with
  | none => (⟨none, false, none⟩, sel, [])
  | some p =>
      if p.place_id = "" then
        (⟨none, false, none⟩, sel, [])
      else
        let placeId := p.place_id
        let sel := { sel with isSelecting := true }
        match fs with
        | some f =>
            let evs := [SelEvent.storeRead placeId]
            match f.getDoc placeId with
            | Except.error _ =>
                (⟨none, false, none⟩, { sel with isSelecting := false }, evs)
            | Except.ok (some d) =>
                match d.rawPlace with
                | some raw =>
                    (⟨some raw, true, some "firebase"⟩,
                     { sel with selectedPlace := some raw,
                                isSelecting := false },
                     evs)
                | none =>
                    selectFallback fs svc lastFromCache lastLayerName sel
                      placeId evs
            | Except.ok none =>
                selectFallback fs svc lastFromCache lastLayerName sel
                  placeId evs
        | none =>
            selectFallback fs svc lastFromCache lastLayerName sel placeId []

/-- A layer yields no hit on `value` when it has no `read`, or its `read`
throws, returns `null`, or returns an empty prediction list. -/
def layerNoHit (layer : CacheLayer) (value : String) : Bool :=
  match layer.read with
  | none => true
  | some f =>
      match f value with
      | Except.error _ => true
      | Except.ok none => true
      | Except.ok (some result) => result.predictions.isEmpty

/-- The read events a list of no-hit layers contributes, in order: one per
layer exposing `read`, each receiving the raw `value`. -/
def readEvents (layers : List CacheLayer) (value : String) : List Event :=
  layers.filterMap fun layer =>
    layer.read.map fun _ => Event.layerRead layer.name value

/-- Concrete fixtures used by the witness theorems below. -/
def predA : Prediction := ⟨"pid-a", "A street"⟩

def predB : Prediction := ⟨"pid-b", "B street"⟩

def place0 : Place := ⟨some "10 Main St", some (1, 2)⟩

def st0 : PredState := ⟨[], false, none, none, none⟩

def sel0 : SelState := ⟨none, false⟩

def readMissLayer : CacheLayer :=
  { name := "miss", read := some fun _ => Except.ok none }

def hitLayer1 : CacheLayer :=
  { name := "L1", read := some fun _ => Except.ok (some ⟨[predA], "L1"⟩) }

def hitLayer2 : CacheLayer :=
  { name := "L2", read := some fun _ => Except.ok (some ⟨[predB], "L2"⟩) }

def throwReadLayer : CacheLayer :=
  { name := "boom", read := some fun _ => Except.error () }

def emptyHitLayer : CacheLayer :=
  { name := "emptyL", read := some fun _ => Except.ok (some ⟨[], "emptyL"⟩) }

def writeLayer : CacheLayer :=
  { name := "W", write := some fun _ _ => Except.ok () }

def throwWriteLayer : CacheLayer :=
  { name := "WB", write := some fun _ _ => Except.error () }

/-- Probing a block of no-hit layers leaves the state untouched, contributes
one read event per layer exposing `read`, and continues with the rest. -/
theorem probeLayers_noHit_append (value : String) (pre rest : List CacheLayer)
    (st : PredState) (h : ∀ M ∈ pre, layerNoHit M value = true) :
    probeLayers value (pre ++ rest) st =
      ((probeLayers value rest st).1,
       readEvents pre value ++ (probeLayers value rest st).2) := by
  induction pre with
  | nil => simp [readEvents]
  | cons M pre ih =>
      have hM := h M (List.mem_cons_self M pre)
      have hpre : ∀ N ∈ pre, layerNoHit N value = true := fun N hN =>
        h N (List.mem_cons_of_mem M hN)
      have ih' := ih hpre
      unfold layerNoHit at hM
      simp only [List.cons_append, probeLayers, readEvents, List.filterMap_cons]
      cases hread : M.read with
      | none =>
          rw [hread] at hM
          simp [readEvents, List.append_eq, ih']
      | some f =>
          rw [hread] at hM
          cases hf : f value with
          | error e =>
              simp [readEvents, List.append_eq, ih', hf]
          | ok o =>
              cases o with
              | none =>
                  simp [readEvents, List.append_eq, ih', hf]
              | some result =>
                  have hM' : result.predictions.isEmpty = true := by
                    simpa [hf] using hM
                  simp [readEvents, List.append_eq, hM', ih', hf]

/-- Probing is a congruence in the tail of the layer list: the state threads
through misses unchanged, so equal behaviour of two tails lifts over any
common block of leading layers. -/
theorem probeLayers_append_congr (value : String) (pre : List CacheLayer)
    (r1 r2 : List CacheLayer) (st : PredState)
    (h : probeLayers value r1 st = probeLayers value r2 st) :
    probeLayers value (pre ++ r1) st = probeLayers value (pre ++ r2) st := by
  induction pre with
  | nil => simpa using h
  | cons M pre ih =>
      simp only [List.cons_append, probeLayers]
      cases hread : M.read with
      | none => simpa [List.append_eq] using ih
      | some f =>
          cases hf : f value with
          | error e => simp [List.append_eq, hf, ih]
          | ok o =>
              cases o with
              | none => simp [List.append_eq, hf, ih]
              | some result =>
                  by_cases hr : result.predictions.isEmpty
                  · simp [List.append_eq, hf, hr, ih]
                  · simp [List.append_eq, hf, hr]

/-- C1: on a non-empty normalized query, the orchestrator probes the layers
in configured order, and the first layer whose `read` yields a non-empty
`PredictionSet` wins: its predictions become current, loading is cleared,
provenance becomes `(fromCache = true, that layer's name)`, and the trace is
exactly the earlier layers' reads followed by the hit layer's read and the
cache-hit observer — so no later layer's `read` and no call into the external
Google binding occurs. -/
theorem getPlacePredictions_first_hit (pre post : List CacheLayer)
    (layer : CacheLayer) (f : String → Except Unit (Option CacheReadResult))
    (result : CacheReadResult) (st : PredState) (input : String)
    (hnorm : normalizeInput input ≠ "")
    (hpre : ∀ M ∈ pre, layerNoHit M input = true)
    (hread : layer.read = some f) (hres : f input = Except.ok (some result))
    (hne : result.predictions.isEmpty = false) :
    getPlacePredictions (pre ++ layer :: post) st input =
      ({ st with placePredictions := result.predictions, isLoading := false,
                 lastResultFromCache := some true,
                 lastCacheLayerName := some layer.name },
       readEvents pre input ++
         [Event.layerRead layer.name input,
          Event.cacheHitObserver layer.name input result.predictions]) := by
  unfold getPlacePredictions
  rw [if_neg hnorm, probeLayers_noHit_append input pre (layer :: post) _ hpre]
  simp [probeLayers, hread, hres, hne]

/-- Witness for C1: two no-hit layers ahead, a hit layer `L1`, and a second
would-be hit `L2` behind it; `L2` is never read and the external binding is
never called. -/
theorem getPlacePredictions_first_hit_witness :
    normalizeInput "123 Main" ≠ "" ∧
    (∀ M ∈ [readMissLayer, throwReadLayer], layerNoHit M "123 Main" = true) ∧
    hitLayer1.read = some (fun _ =>
      (Except.ok (some ⟨[predA], "L1"⟩) :
        Except Unit (Option CacheReadResult))) ∧
    (fun (_ : String) =>
      (Except.ok (some ⟨[predA], "L1"⟩) :
        Except Unit (Option CacheReadResult))) "123 Main" =
      Except.ok (some ⟨[predA], "L1"⟩) ∧
    (⟨[predA], "L1"⟩ : CacheReadResult).predictions.isEmpty = false ∧
    getPlacePredictions
        ([readMissLayer, throwReadLayer] ++ hitLayer1 :: [hitLayer2]) st0
        "123 Main" =
      ({ st0 with placePredictions := [predA], isLoading := false,
                  lastResultFromCache := some true,
                  lastCacheLayerName := some "L1" },
       readEvents [readMissLayer, throwReadLayer] "123 Main" ++
         [Event.layerRead "L1" "123 Main",
          Event.cacheHitObserver "L1" "123 Main" [predA]]) :=
  ⟨by decide, by decide, rfl, rfl, rfl,
   getPlacePredictions_first_hit [readMissLayer, throwReadLayer] [hitLayer2]
     hitLayer1 _ ⟨[predA], "L1"⟩ st0 "123 Main" (by decide) (by decide) rfl
     rfl rfl⟩

/-- C5: when the normalized key is empty, `getPlacePredictions` clears the
current predictions and both provenance fields, and the whole trace is a
single call forwarding the (effectively empty) raw input to the external
binding — in particular no cache layer's `read` is ever invoked. -/
theorem getPlacePredictions_empty_input (layers : List CacheLayer)
    (st : PredState) (input : String) (hnorm : normalizeInput input = "") :
    getPlacePredictions layers st input =
      ({ st with placePredictions := [], isLoading := false,
                 lastResultFromCache := none, lastCacheLayerName := none },
       [Event.baseCall input]) := by
  unfold getPlacePredictions
  rw [if_pos hnorm]

/-- Witness for C5: a whitespace-only input, with read layers configured,
produces only the forwarding call. -/
theorem getPlacePredictions_empty_input_witness :
    normalizeInput "   " = "" ∧
    getPlacePredictions [hitLayer1, hitLayer2] st0 "   " =
      ({ st0 with placePredictions := [], isLoading := false,
                  lastResultFromCache := none, lastCacheLayerName := none },
       [Event.baseCall "   "]) :=
  ⟨by decide,
   getPlacePredictions_empty_input [hitLayer1, hitLayer2] st0 "   "
     (by decide)⟩

/-- C7: a layer whose `read` throws behaves exactly like the same layer
returning absent (`null`): the whole call — final state and full effect
trace — is unchanged when the throwing read is replaced by one returning
absent.  The failure therefore never reaches the caller (the model is a
total function), never blocks a later layer from hitting, and never blocks
the external fallback. -/
theorem getPlacePredictions_throwing_read (pre post : List CacheLayer)
    (layer : CacheLayer) (f : String → Except Unit (Option CacheReadResult))
    (st : PredState) (input : String) (hread : layer.read = some f)
    (herr : f input = Except.error ()) :
    getPlacePredictions (pre ++ layer :: post) st input =
      getPlacePredictions
        (pre ++ { layer with read := some fun _ => Except.ok none } :: post)
        st input := by
  unfold getPlacePredictions
  by_cases hnorm : normalizeInput input = ""
  · rw [if_pos hnorm, if_pos hnorm]
  · rw [if_neg hnorm, if_neg hnorm]
    apply probeLayers_append_congr
    simp [probeLayers, hread, herr]

/-- Witness for C7: a throwing first layer neither hides the second layer's
hit nor changes anything else about the call. -/
theorem getPlacePredictions_throwing_read_witness :
    throwReadLayer.read = some (fun _ => Except.error ()) ∧
    (fun (_ : String) =>
        (Except.error () : Except Unit (Option CacheReadResult))) "paris" =
      Except.error () ∧
    getPlacePredictions ([] ++ throwReadLayer :: [hitLayer2]) st0 "paris" =
      getPlacePredictions
        ([] ++
          { throwReadLayer with read := some fun _ => Except.ok none } ::
            [hitLayer2]) st0 "paris" :=
  ⟨rfl, rfl,
   getPlacePredictions_throwing_read [] [hitLayer2] throwReadLayer _ st0
     "paris" rfl rfl⟩

/-- C8: a layer whose `read` returns a present-but-empty `PredictionSet`
behaves exactly like the same layer returning absent: the whole call — final
state and full effect trace — is unchanged, so the empty set is no hit, the
pipeline falls through to the next layer (or the external fallback), and
provenance is never taken from that layer. -/
theorem getPlacePredictions_empty_hit (pre post : List CacheLayer)
    (layer : CacheLayer) (f : String → Except Unit (Option CacheReadResult))
    (result : CacheReadResult) (st : PredState) (input : String)
    (hread : layer.read = some f) (hres : f input = Except.ok (some result))
    (hempty : result.predictions = []) :
    getPlacePredictions (pre ++ layer :: post) st input =
      getPlacePredictions
        (pre ++ { layer with read := some fun _ => Except.ok none } :: post)
        st input := by
  unfold getPlacePredictions
  by_cases hnorm : normalizeInput input = ""
  · rw [if_pos hnorm, if_pos hnorm]
  · rw [if_neg hnorm, if_neg hnorm]
    apply probeLayers_append_congr
    simp [probeLayers, hread, hres, hempty]

/-- Witness for C8: a first layer answering with an empty set falls through
to the second layer exactly as if it had answered absent. -/
theorem getPlacePredictions_empty_hit_witness :
    emptyHitLayer.read = some (fun _ =>
      (Except.ok (some ⟨[], "emptyL"⟩) :
        Except Unit (Option CacheReadResult))) ∧
    (fun (_ : String) =>
      (Except.ok (some ⟨[], "emptyL"⟩) :
        Except Unit (Option CacheReadResult))) "paris" =
      Except.ok (some ⟨[], "emptyL"⟩) ∧
    (⟨[], "emptyL"⟩ : CacheReadResult).predictions = [] ∧
    getPlacePredictions ([] ++ emptyHitLayer :: [hitLayer2]) st0 "paris" =
      getPlacePredictions
        ([] ++
          { emptyHitLayer with read := some fun _ => Except.ok none } ::
            [hitLayer2]) st0 "paris" :=
  ⟨rfl, rfl, rfl,
   getPlacePredictions_empty_hit [] [hitLayer2] emptyHitLayer _
     ⟨[], "emptyL"⟩ st0 "paris" rfl rfl rfl⟩


/-- C2 counterexample: a query that missed every layer was issued as
`" Paris "`; the subsequent non-empty external result triggers exactly one
write on the only layer exposing `write`, and that write receives the raw
input `" Paris "` — not the normalized query `"paris"`: no write with the
normalized query ever occurs. -/
theorem writeBack_raw_input_counterexample :
    (writeBackEffect [writeLayer]
        (getPlacePredictions [writeLayer] st0 " Paris ").1 [predA] false).2 =
      [WEvent.layerWrite "W" " Paris " [predA],
       WEvent.afterGoogleResult " Paris " [predA]] ∧
    normalizeInput " Paris " = "paris" ∧
    WEvent.layerWrite "W" (normalizeInput " Paris ") [predA] ∉
      (writeBackEffect [writeLayer]
        (getPlacePredictions [writeLayer] st0 " Paris ").1 [predA] false).2 := by
  decide

/-- C2 amended: after a cache-miss query with raw input `inp`, write-back
happens exactly when the delivered external result is non-empty; then every
layer exposing `write` is invoked exactly once, in order, with the raw input
`inp` (the built-in layer normalizes internally before persisting) and the
external predictions, and — since the trace is a `filterMap` that never
inspects the write function's outcome — a throwing write in one layer neither
prevents any other layer's write nor fails the query.  An empty external
result produces no write at all. -/
theorem writeBack_fanout (layers : List CacheLayer) (st : PredState)
    (preds : List Prediction) (bl : Bool) (inp : String)
    (hlayers : layers ≠ []) (hmiss : st.lastResultFromCache = some false)
    (hinp : st.lastInput = some inp) (hne : inp ≠ "") :
    (preds ≠ [] →
      (writeBackEffect layers st preds bl).2 =
        (layers.filterMap fun layer =>
          layer.write.map fun _ =>
            WEvent.layerWrite layer.name inp preds) ++
          [WEvent.afterGoogleResult inp preds]) ∧
    (preds = [] → (writeBackEffect layers st preds bl).2 = []) := by
  constructor
  · intro hpreds
    unfold writeBackEffect
    simp [hmiss, hinp, hne, hpreds, hlayers, List.isEmpty_iff]
  · intro hpreds
    subst hpreds
    unfold writeBackEffect
    cases bl with
    | false => simp
    | true => simp [hmiss, hinp, List.isEmpty_iff, hlayers]

/-- Witness for the amended C2: one healthy and one throwing write layer; the
throwing layer's failure leaves the sibling's write and the observer call in
place, and an empty result writes nothing. -/
theorem writeBack_fanout_witness :
    ([throwWriteLayer, writeLayer] : List CacheLayer) ≠ [] ∧
    ({ st0 with lastResultFromCache := some false,
                lastInput := some " Paris " } :
      PredState).lastResultFromCache = some false ∧
    ({ st0 with lastResultFromCache := some false,
                lastInput := some " Paris " } :
      PredState).lastInput = some " Paris " ∧
    " Paris " ≠ "" ∧
    (([predA] : List Prediction) ≠ [] →
      (writeBackEffect [throwWriteLayer, writeLayer]
          { st0 with lastResultFromCache := some false,
                     lastInput := some " Paris " } [predA] false).2 =
        (([throwWriteLayer, writeLayer] : List CacheLayer).filterMap
            fun layer =>
          layer.write.map fun _ =>
            WEvent.layerWrite layer.name " Paris " [predA]) ++
          [WEvent.afterGoogleResult " Paris " [predA]]) ∧
    (([predA] : List Prediction) = [] →
      (writeBackEffect [throwWriteLayer, writeLayer]
          { st0 with lastResultFromCache := some false,
                     lastInput := some " Paris " } [predA] false).2 = []) :=
  ⟨by simp, rfl, rfl, by decide,
   (writeBack_fanout [throwWriteLayer, writeLayer] _ [predA] false " Paris "
      (by simp) rfl rfl (by decide)).1,
   (writeBack_fanout [throwWriteLayer, writeLayer] _ [predA] false " Paris "
      (by simp) rfl rfl (by decide)).2⟩

/-- C3 counterexample: `" Paris "` and `"paris"` normalize identically, yet
running the pipeline over a user layer exposing `read` produces different
read lookups — the layer's `read` receives the raw string, so the arguments
differ. -/
theorem pipeline_read_args_counterexample :
    normalizeInput " Paris " = normalizeInput "paris" ∧
    (getPlacePredictions [readMissLayer] st0 " Paris ").2 ≠
      (getPlacePredictions [readMissLayer] st0 "paris").2 ∧
    (getPlacePredictions [readMissLayer] st0 " Paris ").2 =
      [Event.layerRead "miss" " Paris ", Event.baseCall " Paris "] ∧
    (getPlacePredictions [readMissLayer] st0 "paris").2 =
      [Event.layerRead "miss" "paris", Event.baseCall "paris"] := by
  decide

/-- C3 amended: queries with equal normalized form produce identical
behaviour of the built-in Firebase layer — the same store lookup result for
any store contents (the layer filters on the normalized key) and the same
written document keys and contents — but each layer's `read` is invoked with
the raw input, so lookup arguments to user layers differ whenever the raw
strings do. -/
theorem firebase_normalized_key_stable (q1 q2 : String)
    (store : List FsDoc) (preds : List Prediction) (rand : Nat → String)
    (h : normalizeInput q1 = normalizeInput q2) :
    firebaseRead store q1 = firebaseRead store q2 ∧
    firebaseWriteDocs q1 preds rand = firebaseWriteDocs q2 preds rand := by
  constructor
  · unfold firebaseRead
    rw [h]
  · unfold firebaseWriteDocs
    rw [h]

/-- Witness for the amended C3 at `" Paris "` / `"PARIS"` over a one-document
store. -/
theorem firebase_normalized_key_stable_witness :
    normalizeInput " Paris " = normalizeInput "PARIS" ∧
    (firebaseRead [⟨some "paris", some predA, none⟩] " Paris " =
      firebaseRead [⟨some "paris", some predA, none⟩] "PARIS" ∧
    firebaseWriteDocs " Paris " [predA] (fun _ => "r") =
      firebaseWriteDocs "PARIS" [predA] (fun _ => "r")) :=
  ⟨by decide,
   firebase_normalized_key_stable " Paris " "PARIS"
     [⟨some "paris", some predA, none⟩] [predA] (fun _ => "r") (by decide)⟩

/-- More fixtures: a prediction with an identifier, a Firestore handle whose
`setDoc` always rejects, one that holds a detail record, and an external
detail service that always succeeds with `place0`. -/
def predP : Prediction := ⟨"pid-p", "P street"⟩

def fsWriteFail : FirestoreHandle :=
  ⟨fun _ => Except.ok none, fun _ _ => Except.error ()⟩

def fsWithDetail : FirestoreHandle :=
  ⟨fun _ => Except.ok (some ⟨none, none, some place0⟩), fun _ _ => Except.ok ()⟩

def svcP : String → Option Place := fun _ => some place0

/-- C4 counterexample: the store is empty, the external detail fetch succeeds
with `place0`, and the subsequent store write rejects.  `selectPrediction`
does attempt the fetch and the write (both appear in the trace) and the
fetched place lands in `selectedPlace` state, but the call resolves with
`place = null` — not with the fetched detail payload. -/
theorem selectPrediction_write_failure_counterexample :
    selectPrediction (some fsWriteFail) (some svcP) (some false) none sel0
        (some predP) =
      (⟨none, false, none⟩, ⟨some place0, false⟩,
       [SelEvent.storeRead "pid-p", SelEvent.detailsCall "pid-p",
        SelEvent.storeWrite "pid-p"]) ∧
    svcP "pid-p" = some place0 ∧
    (⟨none, false, none⟩ : SelectOutcome).place ≠ some place0 := by
  decide

/-- A Firestore handle holding a prediction write-back record for the key —
a document with `normalizedInput` and `prediction` fields but no `rawPlace` —
whose `setDoc` always rejects. -/
def fsPredDocWriteFail : FirestoreHandle :=
  ⟨fun _ => Except.ok (some ⟨some "p street", some predP, none⟩),
   fun _ _ => Except.error ()⟩

/-- C4 amended: on every detail resolution that reaches a successful external
detail fetch — the store read found no document, or found one without a
`rawPlace` field (such as the records the prediction write-back creates) —
a failing store write is swallowed in the sense that the call still resolves
(never rejects) and the fetched detail is retained in the `selectedPlace`
state, but the resolved outcome is
`{ place: null, fromCache: false, cacheLayerName: null }` rather than the
fetched payload. -/
theorem selectPrediction_write_failure (f : FirestoreHandle)
    (g : String → Option Place) (lfc : Option Bool) (lln : Option String)
    (sel : SelState) (p : Prediction) (r : Option FsDoc) (place : Place)
    (hpid : p.place_id ≠ "") (hget : f.getDoc p.place_id = Except.ok r)
    (hraw : ∀ d, r = some d → d.rawPlace = none)
    (hdet : g p.place_id = some place)
    (hset : f.setDoc p.place_id place = Except.error ()) :
    selectPrediction (some f) (some g) lfc lln sel (some p) =
      (⟨none, false, none⟩, ⟨some place, false⟩,
       [SelEvent.storeRead p.place_id, SelEvent.detailsCall p.place_id,
        SelEvent.storeWrite p.place_id]) := by
  unfold selectPrediction selectFallback
  cases r with
  | none => simp [hpid, hget, hdet, hset]
  | some d =>
      have hd := hraw d rfl
      simp [hpid, hget, hd, hdet, hset]

/-- Witness for the amended C4, at a store that holds a prediction write-back
record (a document without `rawPlace`) for the selected identifier and whose
write rejects. -/
theorem selectPrediction_write_failure_witness :
    predP.place_id ≠ "" ∧
    fsPredDocWriteFail.getDoc predP.place_id =
      Except.ok (some ⟨some "p street", some predP, none⟩) ∧
    (∀ d, some (⟨some "p street", some predP, none⟩ : FsDoc) = some d →
      d.rawPlace = none) ∧
    svcP predP.place_id = some place0 ∧
    fsPredDocWriteFail.setDoc predP.place_id place0 = Except.error () ∧
    selectPrediction (some fsPredDocWriteFail) (some svcP) (some false) none
        sel0 (some predP) =
      (⟨none, false, none⟩, ⟨some place0, false⟩,
       [SelEvent.storeRead predP.place_id, SelEvent.detailsCall predP.place_id,
        SelEvent.storeWrite predP.place_id]) :=
  ⟨by decide, rfl, fun d hd => by cases hd; rfl, rfl, rfl,
   selectPrediction_write_failure fsPredDocWriteFail svcP (some false) none
     sel0 predP (some ⟨some "p street", some predP, none⟩) place0 (by decide)
     rfl (fun d hd => by cases hd; rfl) rfl rfl⟩

/-- C6: selecting a prediction whose identifier already has a store record
carrying a `rawPlace` detail payload resolves with that payload,
`fromCache = true` and `cacheLayerName = "firebase"`, and the trace is the
single store read — no external detail call and no store write occur. -/
theorem selectPrediction_cached_detail (f : FirestoreHandle)
    (svc : Option (String → Option Place)) (lfc : Option Bool)
    (lln : Option String) (sel : SelState) (p : Prediction) (d : FsDoc)
    (raw : Place) (hpid : p.place_id ≠ "")
    (hget : f.getDoc p.place_id = Except.ok (some d))
    (hraw : d.rawPlace = some raw) :
    selectPrediction (some f) svc lfc lln sel (some p) =
      (⟨some raw, true, some "firebase"⟩,
       ⟨some raw, false⟩, [SelEvent.storeRead p.place_id]) := by
  unfold selectPrediction
  simp [hpid, hget, hraw]

/-- Witness for C6: the stored record carrying `place0` is returned without
any external call, even though an external service is available. -/
theorem selectPrediction_cached_detail_witness :
    predP.place_id ≠ "" ∧
    fsWithDetail.getDoc predP.place_id =
      Except.ok (some ⟨none, none, some place0⟩) ∧
    (⟨none, none, some place0⟩ : FsDoc).rawPlace = some place0 ∧
    selectPrediction (some fsWithDetail) (some svcP) (some false) none sel0
        (some predP) =
      (⟨some place0, true, some "firebase"⟩,
       ⟨some place0, false⟩, [SelEvent.storeRead predP.place_id]) :=
  ⟨by decide, rfl, rfl,
   selectPrediction_cached_detail fsWithDetail (some svcP) (some false) none
     sel0 predP ⟨none, none, some place0⟩ place0 (by decide) rfl rfl⟩

/-- C9: with no prediction, or a prediction whose `place_id` is missing
(falsy), `selectPrediction` resolves immediately with
`{ place: null, fromCache: false, cacheLayerName: null }`, leaves the local
state untouched, and performs no I/O at all — the trace is empty, so there is
no store read, no store write and no external detail call. -/
theorem selectPrediction_no_place_id (fs : Option FirestoreHandle)
    (svc : Option (String → Option Place)) (lfc : Option Bool)
    (lln : Option String) (sel : SelState) (prediction : Option Prediction)
    (h : ∀ p, prediction = some p → p.place_id = "") :
    selectPrediction fs svc lfc lln sel prediction =
      (⟨none, false, none⟩, sel, []) := by
  cases prediction with
  | none => rfl
  | some p =>
      have hp := h p rfl
      unfold selectPrediction
      simp [hp]

/-- Witness for C9: a prediction with an empty `place_id`, with a configured
store and external service, produces no I/O. -/
theorem selectPrediction_no_place_id_witness :
    (∀ p : Prediction, some (⟨"", "no id"⟩ : Prediction) = some p →
        p.place_id = "") ∧
    selectPrediction (some fsWithDetail) (some svcP) (some false) none sel0
        (some ⟨"", "no id"⟩) =
      (⟨none, false, none⟩, sel0, []) :=
  ⟨fun p hp => by cases hp; rfl,
   selectPrediction_no_place_id (some fsWithDetail) (some svcP) (some false)
     none sel0 (some ⟨"", "no id"⟩) (fun p hp => by cases hp; rfl)⟩

/-- C10: the built-in Firebase layer's `read` returns absent whenever every
record matching the normalized key carries no `prediction` field — in
particular both when no record matches, and when matching records exist but
are detail-only (e.g. hold just a `rawPlace`): such records never count as a
prediction cache hit. -/
theorem firebaseRead_no_prediction_field (store : List FsDoc) (q : String)
    (h : ∀ d ∈ store, d.normalizedInput = some (normalizeInput q) →
      d.prediction = none) :
    firebaseRead store q = none := by
  unfold firebaseRead
  by_cases hsnap :
      (store.filter fun d =>
        d.normalizedInput = some (normalizeInput q)).isEmpty
  · simp [hsnap]
  · have hnil :
        (store.filter fun d =>
          d.normalizedInput = some (normalizeInput q)).filterMap
          (·.prediction) = [] := by
      rw [List.filterMap_eq_nil_iff]
      intro d hd
      have hmem := List.mem_filter.mp hd
      exact h d hmem.1 (by simpa using hmem.2)
    simp [hsnap, hnil]

/-- Witness for C10: a store holding a matching detail-only record (and an
unrelated prediction record) yields no prediction hit. -/
theorem firebaseRead_no_prediction_field_witness :
    (∀ d ∈ ([⟨some "paris", none, some place0⟩,
             ⟨some "london", some predA, none⟩] : List FsDoc),
      d.normalizedInput = some (normalizeInput " Paris ") →
        d.prediction = none) ∧
    firebaseRead
        [⟨some "paris", none, some place0⟩,
         ⟨some "london", some predA, none⟩] " Paris " = none :=
  ⟨by decide,
   firebaseRead_no_prediction_field
     [⟨some "paris", none, some place0⟩, ⟨some "london", some predA, none⟩]
     " Paris " (by decide)⟩
